import Mathlib

/-!
Verification of the windsurfer-tracker server core, a shallow embedding of
`src/server/tracker_server.py`.

Modelling conventions:
* Python dicts keyed by strings become partial maps `String → Option α`.
* Python floats (wall-clock times, coordinates, speeds) become rationals `ℚ`;
  integer-valued fields become `ℤ`.
* File-system effects are made explicit: a function that writes a file
  returns the written contents, and the daily log is the list of lines
  appended during the call.
* The redundant human-readable `*_iso` strings (pure re-formattings of the
  adjacent numeric timestamps) and the console `print` output are not
  modelled.
-/

namespace TrackerServer

/-- Update a partial map at one key (Python `d[k] = v`). -/
def mapSet {β : Type} (m : String → Option β) (k : String) (v : β) :
    String → Option β :=
  fun x => if x = k then some v else m x

/-- One sample of a batched `pos` array, `[ts, lat, lon]` or
`[ts, lat, lon, spd]`, after sanitization. -/
structure PosSample where
  ts : ℤ
  lat : ℚ
  lon : ℚ
  spd : Option ℚ
deriving DecidableEq

/-- A live-table entry: the `pos_data` dict built in
`PositionTracker.process_position`.  The optional trailing fields are the
keys that are present only for some reports. -/
structure PosEntry where
  id : String
  lat : ℚ
  lon : ℚ
  spd : ℚ
  hdg : ℤ
  ast : Bool
  bat : ℤ
  sig : ℤ
  role : String
  ver : String
  flg : List (String × String)
  ts : ℤ
  last_seen : ℚ
  src_ip : String
  bdr : Option ℚ
  hr : Option ℤ
  os : Option String
  hac : Option ℚ
deriving DecidableEq

/-- The sanitized per-report arguments handed to `process_position`
(after the router has resolved `lat`/`lon`/`ts` from the `pos` array when
one is present). -/
structure Report where
  id : String
  lat : ℚ
  lon : ℚ
  spd : ℚ
  hdg : ℤ
  ts : ℤ
  ast : Bool
  bat : ℤ
  sig : ℤ
  role : String
  ver : String
  flg : List (String × String)
  bdr : Option ℚ
  hr : Option ℤ
  os : Option String
  hac : Option ℚ
  src_ip : String
  pwd : String
  sq : ℤ
deriving DecidableEq

/-- One line of the daily track log (a `track_entry` dict).  A single-sample
line carries `latlon = some _` and `pos = none`; a combined batch line
carries `pos = some _` and no top-level lat/lon. -/
structure LogEntry where
  id : String
  ts : ℤ
  recv_ts : ℚ
  latlon : Option (ℚ × ℚ)
  pos : Option (List PosSample)
  spd : ℚ
  hdg : ℤ
  ast : Bool
  bat : ℤ
  sig : ℤ
  role : String
  ver : String
  flg : List (String × String)
  bdr : Option ℚ
  hr : Option ℤ
  os : Option String
  hac : Option ℚ
deriving DecidableEq

/-- `hr` is recorded only when positive
(`if heart_rate is not None and heart_rate > 0`). -/
def hrField (hr : Option ℤ) : Option ℤ :=
  match hr with
  | some h => if 0 < h then some h else none
  | none => none

/-- `os` is recorded only when non-empty (`if os_version:`). -/
def osField (os : Option String) : Option String :=
  match os with
  | some s => if s = "" then none else some s
  | none => none

/-- The `pos_data` dict stored into `current_positions` for a fresh report. -/
def mkPosData (r : Report) (recv_time : ℚ) : PosEntry :=
  { id := r.id, lat := r.lat, lon := r.lon, spd := r.spd, hdg := r.hdg,
    ast := r.ast, bat := r.bat, sig := r.sig, role := r.role, ver := r.ver,
    flg := r.flg, ts := r.ts, last_seen := recv_time, src_ip := r.src_ip,
    bdr := r.bdr, hr := hrField r.hr, os := osField r.os, hac := r.hac }

/-- The single-sample `track_entry` appended by
`PositionTracker.process_position` when the report is new. -/
def mkTrackEntry (r : Report) (recv_time : ℚ) : LogEntry :=
  { id := r.id, ts := r.ts, recv_ts := recv_time,
    latlon := some (r.lat, r.lon), pos := none,
    spd := r.spd, hdg := r.hdg, ast := r.ast, bat := r.bat, sig := r.sig,
    role := r.role, ver := r.ver, flg := r.flg,
    bdr := r.bdr, hr := hrField r.hr, os := osField r.os, hac := r.hac }

/-- The combined batch `track_entry` appended by
`EventTracker.process_position` when the report carries a `pos` array of
length greater than one. -/
def mkBatchEntry (r : Report) (posArray : List PosSample) (recv_time : ℚ) :
    LogEntry :=
  { id := r.id, ts := r.ts, recv_ts := recv_time,
    latlon := none, pos := some posArray,
    spd := r.spd, hdg := r.hdg, ast := r.ast, bat := r.bat, sig := r.sig,
    role := r.role, ver := r.ver, flg := r.flg,
    bdr := r.bdr, hr := hrField r.hr, os := osField r.os, hac := r.hac }

/-- In-memory state of a `PositionTracker`: the `current_positions` dict and
the `last_timestamp` dict. -/
structure TrackerState where
  current_positions : String → Option PosEntry
  last_timestamp : String → Option ℤ

/-- The state of a freshly constructed tracker with no snapshot on disk. -/
def TrackerState.empty : TrackerState :=
  ⟨fun _ => none, fun _ => none⟩

/-- Result of one `process_position` call: the state afterwards, the return
value (`true` when the position was new), and the daily-log lines appended
during the call. -/
structure ProcessResult where
  state : TrackerState
  isNew : Bool
  logged : List LogEntry

/-- `PositionTracker.process_position`: the duplicate check against
`last_timestamp`, the live-table update, and the daily-log append.
A report whose `ts` is at most the stored timestamp is a duplicate and
changes nothing; otherwise the watermark, the live entry, the positions
file and (unless `skip_log`) the daily log are updated. -/
def process_position (st : TrackerState) (r : Report) (recv_time : ℚ)
    (skip_log : Bool) : ProcessResult :=
  let is_dup : Bool :=
    match st.last_timestamp r.id with
    | some t => decide (r.ts ≤ t)
    | none => false
  if is_dup then
    ⟨st, false, []⟩
  else
    let st1 : TrackerState :=
      { current_positions :=
          mapSet st.current_positions r.id (mkPosData r recv_time),
        last_timestamp := mapSet st.last_timestamp r.id r.ts }
    ⟨st1, true, if skip_log then [] else [mkTrackEntry r recv_time]⟩

/-- `EventTracker.process_position`: when the sanitized `pos` array has
length greater than one the combined batch entry is written to the daily
log first, and the inner tracker is invoked with `skip_log` so that the
batch is the only line logged for the report. -/
def event_process_position (st : TrackerState) (r : Report)
    (pos_array : Option (List PosSample)) (recv_time : ℚ) : ProcessResult :=
  let has_batch : Bool :=
    match pos_array with
    | some l => decide (1 < l.length)
    | none => false
  let batchLog : List LogEntry :=
    match pos_array with
    | some l =>
        if 1 < l.length then [mkBatchEntry r l recv_time] else []
    | none => []
  let res := process_position st r recv_time has_batch
  ⟨res.state, res.isNew, batchLog ++ res.logged⟩

/-- A whole sequence of reports folded through `process_position`
(each report with its receive time and `skip_log` flag). -/
def processReports (st : TrackerState) (rs : List (Report × ℚ × Bool)) :
    TrackerState :=
  rs.foldl (fun s x => (process_position s x.1 x.2.1 x.2.2).state) st

theorem process_position_dup (st : TrackerState) (r : Report) (recv_time : ℚ)
    (skip_log : Bool) (t : ℤ) (h : st.last_timestamp r.id = some t)
    (hle : r.ts ≤ t) :
    process_position st r recv_time skip_log = ⟨st, false, []⟩ := by
  unfold process_position
  rw [h]
  simp [hle]

theorem process_position_new (st : TrackerState) (r : Report) (recv_time : ℚ)
    (skip_log : Bool) (hnew : ∀ t, st.last_timestamp r.id = some t → t < r.ts) :
    process_position st r recv_time skip_log =
      ⟨⟨mapSet st.current_positions r.id (mkPosData r recv_time),
        mapSet st.last_timestamp r.id r.ts⟩, true,
       if skip_log then [] else [mkTrackEntry r recv_time]⟩ := by
  unfold process_position
  rcases hrd : st.last_timestamp r.id with _ | t0
  · simp
  · have := hnew t0 hrd
    simp [show ¬ r.ts ≤ t0 by omega]

theorem process_position_lastTs_other (st : TrackerState) (r : Report)
    (recv_time : ℚ) (skip_log : Bool) (sid : String) (hid : sid ≠ r.id) :
    (process_position st r recv_time skip_log).state.last_timestamp sid
      = st.last_timestamp sid := by
  unfold process_position
  rcases st.last_timestamp r.id with _ | t0
  · simp [mapSet, hid]
  · by_cases hle : r.ts ≤ t0 <;> simp [hle, mapSet, hid]

theorem process_position_lastTs_step (st : TrackerState) (r : Report)
    (recv_time : ℚ) (skip_log : Bool) (sid : String) (t : ℤ)
    (h : st.last_timestamp sid = some t) :
    ∃ v, (process_position st r recv_time skip_log).state.last_timestamp sid
        = some v ∧ t ≤ v := by
  by_cases hid : sid = r.id
  · subst hid
    by_cases hle : r.ts ≤ t
    · rw [process_position_dup st r recv_time skip_log t h hle]
      exact ⟨t, h, le_refl t⟩
    · have hts : (process_position st r recv_time skip_log).state.last_timestamp
          r.id = some r.ts := by
        rw [process_position_new st r recv_time skip_log]
        · simp [mapSet]
        · intro t0 h0
          rw [h] at h0
          injection h0 with h1
          omega
      exact ⟨r.ts, hts, by omega⟩
  · rw [process_position_lastTs_other st r recv_time skip_log sid hid]
    exact ⟨t, h, le_refl t⟩

theorem processReports_lastTs_mono (rs : List (Report × ℚ × Bool))
    (st : TrackerState) (sid : String) (t u : ℤ)
    (h : st.last_timestamp sid = some t)
    (h2 : (processReports st rs).last_timestamp sid = some u) : t ≤ u := by
  induction rs generalizing st t with
  | nil =>
      unfold processReports at h2
      simp at h2
      rw [h] at h2
      injection h2 with h3
      omega
  | cons x xs ih =>
      obtain ⟨v, hv, htv⟩ :=
        process_position_lastTs_step st x.1 x.2.1 x.2.2 sid t h
      have hxs : (processReports (process_position st x.1 x.2.1 x.2.2).state
          xs).last_timestamp sid = some u := by
        unfold processReports at h2 ⊢
        simpa using h2
      exact le_trans htv (ih _ _ hv hxs)

/-- A fixed sanitized report used to instantiate theorems on concrete data. -/
def sampleReport : Report :=
  { id := "T1", lat := 10, lon := 20, spd := 5, hdg := 90, ts := 1000,
    ast := false, bat := 50, sig := 3, role := "sailor", ver := "1.0",
    flg := [], bdr := none, hr := none, os := none, hac := none,
    src_ip := "10.0.0.1", pwd := "", sq := 1 }

/-- A tracker state that has already seen tracker `T1` at timestamp 1000. -/
def sampleState : TrackerState :=
  ⟨fun _ => none, fun x => if x = "T1" then some 1000 else none⟩

/-- C1: processing a report whose `ts` is at most the stored last timestamp
for its tracker marks it as a duplicate and leaves the tracker state — in
particular that tracker's live entry — unchanged; otherwise the stored last
timestamp becomes `ts` and the report counts as new; hence the stored
timestamp per tracker is non-decreasing across any sequence of processed
reports. -/
theorem duplicate_suppression_monotone (st : TrackerState) (r : Report)
    (recv_time : ℚ) (skip_log : Bool) :
    (∀ t, st.last_timestamp r.id = some t → r.ts ≤ t →
       process_position st r recv_time skip_log = ⟨st, false, []⟩) ∧
    ((∀ t, st.last_timestamp r.id = some t → t < r.ts) →
       (process_position st r recv_time skip_log).state.last_timestamp r.id
           = some r.ts ∧
       (process_position st r recv_time skip_log).isNew = true) ∧
    (∀ rs sid t u, st.last_timestamp sid = some t →
       (processReports st rs).last_timestamp sid = some u → t ≤ u) := by
  refine ⟨fun t h hle => process_position_dup st r recv_time skip_log t h hle,
    fun hnew => ?_,
    fun rs sid t u h h2 => processReports_lastTs_mono rs st sid t u h h2⟩
  rw [process_position_new st r recv_time skip_log hnew]
  simp [mapSet]

theorem duplicate_suppression_monotone_witness :
    process_position sampleState sampleReport 2000 false
        = ⟨sampleState, false, []⟩ ∧
    (process_position sampleState { sampleReport with ts := 1001 } 2000
        false).state.last_timestamp "T1" = some 1001 ∧
    (1000 : ℤ) ≤ 1001 := by
  refine ⟨?_, ?_, ?_⟩
  · exact (duplicate_suppression_monotone sampleState sampleReport 2000
      false).1 1000 rfl (by decide)
  · exact ((duplicate_suppression_monotone sampleState
      { sampleReport with ts := 1001 } 2000 false).2.1
      (by intro t h; simp [sampleState, sampleReport] at h ⊢; omega)).1
  · exact (duplicate_suppression_monotone sampleState sampleReport 2000
      false).2.2 [({ sampleReport with ts := 1001 }, 2000, false)] "T1"
      1000 1001 rfl (by decide)

/-! ### File rotation (`rotate_file`, used by `DailyLogger.clear_today` and
course saves).

Only the slice of the file system that `rotate_file` can touch matters: the
base path `P` and its numbered siblings `P.N`.  A directory state records
whether `P` exists and the set of suffixes `N ≥ 1` for which `P.N` exists. -/

structure RotState where
  base : Bool
  suffixes : List ℕ
deriving DecidableEq

/-- An upper bound on the suffixes present in a directory state. -/
def maxSuffix (l : List ℕ) : ℕ := l.foldr max 0

/-- The `while` loop of `rotate_file`: the smallest free suffix at least
`n`.  The loop terminates because the directory is finite; `fuel` only
bounds the iteration count and is never exhausted when it starts at
`maxSuffix l + 1`. -/
def findFreeFrom (l : List ℕ) : ℕ → ℕ → ℕ
  | 0, n => n
  | fuel + 1, n => if n ∈ l then findFreeFrom l fuel (n + 1) else n

/-- The suffix `rotate_file` picks: the smallest `n ≥ 1` with `P.n` free. -/
def next_suffix (l : List ℕ) : ℕ := findFreeFrom l (maxSuffix l + 1) 1

/-- `rotate_file(P)`: `none` (“not rotated”) when `P` does not exist;
otherwise `P` is renamed to `P.N` for the smallest free `N ≥ 1` and the new
suffix is returned. -/
def rotate_file (st : RotState) : Option ℕ × RotState :=
  if st.base then
    let n := next_suffix st.suffixes
    (some n, ⟨false, n :: st.suffixes⟩)
  else (none, st)

theorem mem_le_maxSuffix (l : List ℕ) (m : ℕ) (h : m ∈ l) : m ≤ maxSuffix l := by
  induction l with
  | nil => cases h
  | cons a as ih =>
      unfold maxSuffix at ih ⊢
      rcases List.mem_cons.mp h with h1 | h1
      · subst h1
        exact Nat.le_max_left _ _
      · exact le_trans (ih h1) (Nat.le_max_right _ _)

theorem findFreeFrom_spec (l : List ℕ) (fuel n : ℕ)
    (hfuel : maxSuffix l + 1 ≤ n + fuel) :
    findFreeFrom l fuel n ∉ l ∧ n ≤ findFreeFrom l fuel n ∧
      ∀ m, n ≤ m → m < findFreeFrom l fuel n → m ∈ l := by
  induction fuel generalizing n with
  | zero =>
      simp only [findFreeFrom]
      refine ⟨fun hmem => ?_, le_refl n, fun m h1 h2 => by omega⟩
      have := mem_le_maxSuffix l n hmem
      omega
  | succ fuel ih =>
      unfold findFreeFrom
      by_cases hmem : n ∈ l
      · rw [if_pos hmem]
        obtain ⟨h1, h2, h3⟩ := ih (n + 1) (by omega)
        refine ⟨h1, by omega, fun m hm1 hm2 => ?_⟩
        rcases Nat.lt_or_ge m (n + 1) with hm | hm
        · have : m = n := by omega
          subst this
          exact hmem
        · exact h3 m hm hm2
      · rw [if_neg hmem]
        exact ⟨hmem, le_refl n, fun m h1 h2 => by omega⟩

theorem next_suffix_spec (l : List ℕ) :
    next_suffix l ∉ l ∧ 1 ≤ next_suffix l ∧
      ∀ m, 1 ≤ m → m < next_suffix l → m ∈ l := by
  exact findFreeFrom_spec l (maxSuffix l + 1) 1 (by omega)

/-- C6: rotating a missing path is a no-op returning “not rotated”;
otherwise the path is renamed to the smallest free positive suffix; and in
a logger context (the base file is recreated after each rotation) repeated
rotations produce strictly increasing, never-reused suffixes. -/
theorem rotate_file_spec (st : RotState) :
    (st.base = false → rotate_file st = (none, st)) ∧
    (st.base = true →
       rotate_file st =
         (some (next_suffix st.suffixes),
          ⟨false, next_suffix st.suffixes :: st.suffixes⟩) ∧
       next_suffix st.suffixes ∉ st.suffixes ∧
       1 ≤ next_suffix st.suffixes ∧
       (∀ m, 1 ≤ m → m < next_suffix st.suffixes → m ∈ st.suffixes)) ∧
    (∀ n1 st1 n2 st2, st.base = true →
       rotate_file st = (some n1, st1) →
       rotate_file ⟨true, st1.suffixes⟩ = (some n2, st2) →
       n1 < n2 ∧ n2 ∉ st1.suffixes) := by
  obtain ⟨ha, hb, hc⟩ := next_suffix_spec st.suffixes
  refine ⟨fun h => by simp [rotate_file, h], fun h => ⟨by simp [rotate_file, h], ha, hb, hc⟩,
    fun n1 st1 n2 st2 h h1 h2 => ?_⟩
  simp [rotate_file, h] at h1
  obtain ⟨hn1, hst1⟩ := h1
  subst hn1
  rw [← hst1] at h2
  simp [rotate_file] at h2
  obtain ⟨hn2, -⟩ := h2
  obtain ⟨ha2, hb2, -⟩ := next_suffix_spec (next_suffix st.suffixes :: st.suffixes)
  rw [hn2] at ha2 hb2
  rw [← hst1]
  simp only [List.mem_cons, not_or] at ha2
  obtain ⟨hne, hnotin⟩ := ha2
  constructor
  · by_contra hlt
    push_neg at hlt
    have : n2 < next_suffix st.suffixes := by omega
    exact hnotin (hc n2 hb2 this)
  · simp only [List.mem_cons, not_or]
    exact ⟨hne, hnotin⟩

theorem rotate_file_spec_witness :
    rotate_file ⟨false, [1]⟩ = (none, ⟨false, [1]⟩) ∧
    rotate_file ⟨true, [2]⟩ = (some 1, ⟨false, [1, 2]⟩) ∧
    rotate_file ⟨true, [1, 2]⟩ = (some 3, ⟨false, [3, 1, 2]⟩) ∧
    (1 : ℕ) < 3 := by
  refine ⟨(rotate_file_spec ⟨false, [1]⟩).1 rfl, ?_, ?_, ?_⟩
  · have := ((rotate_file_spec ⟨true, [2]⟩).2.1 rfl).1
    simpa using this
  · have := ((rotate_file_spec ⟨true, [1, 2]⟩).2.1 rfl).1
    simpa using this
  · exact ((rotate_file_spec ⟨true, [2]⟩).2.2 1 ⟨false, [1, 2]⟩ 3
      ⟨false, [3, 1, 2]⟩ rfl (by decide) (by decide)).1

theorem process_position_skip_logged (st : TrackerState) (r : Report)
    (recv_time : ℚ) :
    (process_position st r recv_time true).logged = [] := by
  unfold process_position
  rcases st.last_timestamp r.id with _ | t0
  · simp
  · by_cases hle : r.ts ≤ t0 <;> simp [hle]

theorem process_position_nodup_logged (st : TrackerState) (r : Report)
    (recv_time : ℚ) (hnew : ∀ t, st.last_timestamp r.id = some t → t < r.ts) :
    (process_position st r recv_time false).logged
      = [mkTrackEntry r recv_time] := by
  rw [process_position_new st r recv_time false hnew]
  simp

/-- C2 (amended): a sanitized report whose `pos` array has length at least 2
appends exactly one daily-log line, whose `pos` field is the sanitized
array, whether or not the report's final timestamp is a duplicate; a report
with no `pos` array or a singleton one appends a single-sample line when
its timestamp is new, and appends nothing when it is a duplicate. -/
theorem batch_logging (st : TrackerState) (r : Report) (recv_time : ℚ) :
    (∀ l, 2 ≤ l.length →
       (event_process_position st r (some l) recv_time).logged
           = [mkBatchEntry r l recv_time] ∧
       (mkBatchEntry r l recv_time).pos = some l) ∧
    ((∀ t, st.last_timestamp r.id = some t → t < r.ts) →
       (event_process_position st r none recv_time).logged
           = [mkTrackEntry r recv_time] ∧
       ∀ x, (event_process_position st r (some [x]) recv_time).logged
           = [mkTrackEntry r recv_time]) ∧
    (∀ t, st.last_timestamp r.id = some t → r.ts ≤ t →
       (event_process_position st r none recv_time).logged = [] ∧
       ∀ x, (event_process_position st r (some [x]) recv_time).logged = []) := by
  refine ⟨fun l hl => ?_, fun hnew => ?_, fun t h hle => ?_⟩
  · unfold event_process_position
    have h1 : 1 < l.length := by omega
    simp [h1, process_position_skip_logged]
    rfl
  · unfold event_process_position
    constructor
    · simpa using process_position_nodup_logged st r recv_time hnew
    · intro x
      simpa using process_position_nodup_logged st r recv_time hnew
  · unfold event_process_position
    constructor
    · simp [process_position_dup st r recv_time false t h hle]
    · intro x
      simp [process_position_dup st r recv_time false t h hle]

theorem batch_logging_witness :
    (event_process_position sampleState { sampleReport with ts := 1002 }
        (some [⟨1001, 1, 2, none⟩, ⟨1002, 3, 4, none⟩]) 2000).logged
      = [mkBatchEntry { sampleReport with ts := 1002 }
          [⟨1001, 1, 2, none⟩, ⟨1002, 3, 4, none⟩] 2000] ∧
    (event_process_position sampleState { sampleReport with ts := 1002 }
        none 2000).logged
      = [mkTrackEntry { sampleReport with ts := 1002 } 2000] ∧
    (event_process_position sampleState sampleReport none 2000).logged
      = [] := by
  refine ⟨?_, ?_, ?_⟩
  · exact ((batch_logging sampleState { sampleReport with ts := 1002 }
      2000).1 [⟨1001, 1, 2, none⟩, ⟨1002, 3, 4, none⟩] (by decide)).1
  · exact ((batch_logging sampleState { sampleReport with ts := 1002 }
      2000).2.1
      (by intro t h; simp [sampleState, sampleReport] at h ⊢; omega)).1
  · exact ((batch_logging sampleState sampleReport 2000).2.2 1000 rfl
      (by decide)).1

/-- C2 counterexample: a duplicate single-sample report (timestamp equal to
the stored one, no `pos` array) appends no daily-log line at all, while the
claim says every no-`pos` report appends a single-sample line. -/
theorem batch_logging_counterexample :
    sampleState.last_timestamp sampleReport.id = some 1000 ∧
    sampleReport.ts = 1000 ∧
    (event_process_position sampleState sampleReport none 2000).logged
      = [] := by
  exact ⟨rfl, rfl, rfl⟩

/-! ### Publishing the live snapshot with user overrides
(`write_current_positions`). -/

/-- A per-tracker display override as stored in the overrides table:
each key may be absent. -/
structure Override where
  name : Option String
  role : Option String
  hidden : Option Bool
deriving DecidableEq

/-- One displayed sailor entry: the copied live entry (whose `role` may have
been replaced), plus the display-only `name` and `hidden` keys. -/
structure DisplayEntry where
  entry : PosEntry
  name : Option String
  hidden : Bool
deriving DecidableEq

/-- The override application in `write_current_positions`: the live entry is
copied; `name` and `role` are replaced when the override carries them, and
`hidden` is set when the override's `hidden` is truthy. -/
def apply_override (pos : PosEntry) (ov : Option Override) : DisplayEntry :=
  match ov with
  | none => ⟨pos, none, false⟩
  | some o =>
      ⟨{ pos with role := o.role.getD pos.role }, o.name, o.hidden.getD false⟩

/-- The contents of `current_positions.json` (`updated_iso` omitted, see the
file header). -/
structure Snapshot where
  updated : ℚ
  sailors : String → Option DisplayEntry

/-- `write_current_positions`: the snapshot file computed from the live
table and the user-override table. -/
def write_current_positions (positions : String → Option PosEntry)
    (user_overrides : String → Option Override) (now : ℚ) : Snapshot :=
  ⟨now, fun sid =>
    (positions sid).map fun pos => apply_override pos (user_overrides sid)⟩

/-- C8: every published entry is the stored live entry with its override
applied; overriding replaces only the displayed `name`, `role` and `hidden`
keys (all other fields of the displayed entry equal the stored ones), and
the stored live table itself is untouched — republishing the same table
with no overrides reproduces the stored entries exactly. -/
theorem override_application (positions : String → Option PosEntry)
    (user_overrides : String → Option Override) (now : ℚ) (sid : String)
    (pos : PosEntry) (h : positions sid = some pos) :
    ((write_current_positions positions user_overrides now).sailors sid
        = some (apply_override pos (user_overrides sid))) ∧
    (∀ o, (apply_override pos o).entry
        = { pos with role := (apply_override pos o).entry.role }) ∧
    (apply_override pos none = ⟨pos, none, false⟩) ∧
    (∀ o, apply_override pos (some o)
        = ⟨{ pos with role := o.role.getD pos.role }, o.name,
           o.hidden.getD false⟩) ∧
    ((write_current_positions positions (fun _ => none) now).sailors sid
        = some ⟨pos, none, false⟩) := by
  refine ⟨by simp [write_current_positions, h], fun o => ?_, rfl, fun o => rfl,
    by simp [write_current_positions, h, apply_override]⟩
  rcases o with _ | o
  · rfl
  · rfl

theorem override_application_witness :
    ((write_current_positions
        (fun x => if x = "T1" then some (mkPosData sampleReport 2000) else none)
        (fun x => if x = "T1"
          then some ⟨some "Alice", some "support", some true⟩ else none)
        2100).sailors "T1"
      = some ⟨{ mkPosData sampleReport 2000 with role := "support" },
              some "Alice", true⟩) := by
  have h := (override_application
    (fun x => if x = "T1" then some (mkPosData sampleReport 2000) else none)
    (fun x => if x = "T1"
      then some ⟨some "Alice", some "support", some true⟩ else none)
    2100 "T1" (mkPosData sampleReport 2000) rfl).1
  simpa [apply_override] using h

/-! ### Crash recovery (`PositionTracker._load_from_file`). -/

/-- A sailor entry as read back from `current_positions.json`: every field
is fetched with `pos.get(key, default)`, so each may be absent
(`last_seen_iso`, a re-formatting of `last_seen`, is omitted, see the file
header). -/
structure SnapEntry where
  id : Option String
  lat : Option ℚ
  lon : Option ℚ
  spd : Option ℚ
  hdg : Option ℤ
  ast : Option Bool
  bat : Option ℤ
  sig : Option ℤ
  role : Option String
  ver : Option String
  flg : Option (List (String × String))
  ts : Option ℤ
  last_seen : Option ℚ
  src_ip : Option String
deriving DecidableEq

/-- Restoring one sailor entry in `_load_from_file` (display overrides are
excluded, and the optional `bdr`/`hr`/`os`/`hac` keys are not restored). -/
def loadEntry (sid : String) (e : SnapEntry) : PosEntry :=
  { id := e.id.getD sid, lat := e.lat.getD 0, lon := e.lon.getD 0,
    spd := e.spd.getD 0, hdg := e.hdg.getD 0, ast := e.ast.getD false,
    bat := e.bat.getD (-1), sig := e.sig.getD (-1),
    role := e.role.getD "sailor", ver := e.ver.getD "",
    flg := e.flg.getD [], ts := e.ts.getD 0, last_seen := e.last_seen.getD 0,
    src_ip := e.src_ip.getD "",
    bdr := none, hr := none, os := none, hac := none }

/-- One iteration of the restore loop: the live entry is always restored;
`last_timestamp` is seeded only when `pos.get("ts")` is truthy, i.e.
present and nonzero. -/
def loadStep (st : TrackerState) (p : String × SnapEntry) : TrackerState :=
  { current_positions := mapSet st.current_positions p.1 (loadEntry p.1 p.2),
    last_timestamp :=
      if p.2.ts.getD 0 ≠ 0 then mapSet st.last_timestamp p.1 (p.2.ts.getD 0)
      else st.last_timestamp }

/-- `PositionTracker._load_from_file` on the `sailors` table of the
snapshot (a JSON object, hence distinct keys). -/
def load_from_file (sailors : List (String × SnapEntry)) : TrackerState :=
  sailors.foldl loadStep TrackerState.empty

theorem foldl_loadStep_lastTs_other (l : List (String × SnapEntry))
    (st : TrackerState) (sid : String) (h : sid ∉ l.map Prod.fst) :
    (l.foldl loadStep st).last_timestamp sid = st.last_timestamp sid := by
  induction l generalizing st with
  | nil => rfl
  | cons x xs ih =>
      simp only [List.map_cons, List.mem_cons, not_or] at h
      rw [List.foldl_cons, ih _ h.2]
      unfold loadStep
      by_cases hc : x.2.ts.getD 0 ≠ 0 <;> simp [hc, mapSet, h.1]

theorem foldl_loadStep_pos_other (l : List (String × SnapEntry))
    (st : TrackerState) (sid : String) (h : sid ∉ l.map Prod.fst) :
    (l.foldl loadStep st).current_positions sid = st.current_positions sid := by
  induction l generalizing st with
  | nil => rfl
  | cons x xs ih =>
      simp only [List.map_cons, List.mem_cons, not_or] at h
      rw [List.foldl_cons, ih _ h.2]
      unfold loadStep
      simp [mapSet, h.1]

theorem foldl_loadStep_lastTs_mem (l : List (String × SnapEntry))
    (st : TrackerState) (sid : String) (e : SnapEntry)
    (hnd : (l.map Prod.fst).Nodup) (hmem : (sid, e) ∈ l) :
    (l.foldl loadStep st).last_timestamp sid =
      if e.ts.getD 0 ≠ 0 then some (e.ts.getD 0)
      else st.last_timestamp sid := by
  induction l generalizing st with
  | nil => cases hmem
  | cons x xs ih =>
      simp only [List.map_cons, List.nodup_cons] at hnd
      rcases List.mem_cons.mp hmem with h1 | h1
      · rw [List.foldl_cons,
          foldl_loadStep_lastTs_other xs _ sid
            (by rw [← h1] at hnd; exact hnd.1)]
        rw [← h1]
        unfold loadStep
        by_cases hc : e.ts.getD 0 ≠ 0 <;> simp [hc, mapSet]
      · have hsid : sid ∈ xs.map Prod.fst :=
          List.mem_map.mpr ⟨(sid, e), h1, rfl⟩
        have hne : sid ≠ x.1 := by
          intro hh
          exact hnd.1 (hh ▸ hsid)
        rw [List.foldl_cons, ih _ hnd.2 h1]
        have hstep : (loadStep st x).last_timestamp sid
            = st.last_timestamp sid := by
          unfold loadStep
          by_cases hc : x.2.ts.getD 0 ≠ 0 <;> simp [hc, mapSet, hne]
        rw [hstep]

theorem foldl_loadStep_pos_mem (l : List (String × SnapEntry))
    (st : TrackerState) (sid : String) (e : SnapEntry)
    (hnd : (l.map Prod.fst).Nodup) (hmem : (sid, e) ∈ l) :
    (l.foldl loadStep st).current_positions sid
      = some (loadEntry sid e) := by
  induction l generalizing st with
  | nil => cases hmem
  | cons x xs ih =>
      simp only [List.map_cons, List.nodup_cons] at hnd
      rcases List.mem_cons.mp hmem with h1 | h1
      · rw [List.foldl_cons,
          foldl_loadStep_pos_other xs _ sid
            (by rw [← h1] at hnd; exact hnd.1)]
        rw [← h1]
        unfold loadStep
        simp [mapSet]
      · exact List.foldl_cons _ _ ▸ ih _ hnd.2 h1

/-- C5 (amended): on construction the tracker restores every snapshot entry
into the live table, and seeds `last_timestamp[tracker_id] = entry.ts` for
every entry whose `ts` is present and nonzero — after a restart a first
report repeating such a tracker's prior timestamp is a duplicate and
changes nothing.  An entry whose `ts` is 0 or missing is not seeded (the
`if pos.get("ts")` truthiness test skips it). -/
theorem restart_seeding (sailors : List (String × SnapEntry))
    (hnd : (sailors.map Prod.fst).Nodup) (sid : String) (e : SnapEntry)
    (hmem : (sid, e) ∈ sailors) :
    ((load_from_file sailors).current_positions sid
        = some (loadEntry sid e)) ∧
    (∀ t, e.ts = some t → t ≠ 0 →
       (load_from_file sailors).last_timestamp sid = some t ∧
       ∀ (r : Report) (recv_time : ℚ) (skip_log : Bool),
         r.id = sid → r.ts = t →
         process_position (load_from_file sailors) r recv_time skip_log
           = ⟨load_from_file sailors, false, []⟩) ∧
    ((e.ts = some 0 ∨ e.ts = none) →
       (load_from_file sailors).last_timestamp sid = none) := by
  refine ⟨foldl_loadStep_pos_mem sailors _ sid e hnd hmem,
    fun t ht htz => ?_, fun h0 => ?_⟩
  · have hseed : (load_from_file sailors).last_timestamp sid = some t := by
      rw [load_from_file,
        foldl_loadStep_lastTs_mem sailors _ sid e hnd hmem]
      simp [ht, htz]
    refine ⟨hseed, fun r recv_time skip_log hid hts => ?_⟩
    apply process_position_dup
    · rw [hid]
      exact hseed
    · omega
  · rw [load_from_file, foldl_loadStep_lastTs_mem sailors _ sid e hnd hmem]
    rcases h0 with h0 | h0 <;> simp [h0, TrackerState.empty]

/-- A restored snapshot entry whose stored timestamp is 1000. -/
def snapEntryAt (t : ℤ) : SnapEntry :=
  { id := some "T1", lat := some 10, lon := some 20, spd := some 5,
    hdg := some 90, ast := some false, bat := some 50, sig := some 3,
    role := some "sailor", ver := some "1.0", flg := some [],
    ts := some t, last_seen := some 999, src_ip := some "10.0.0.1" }

theorem restart_seeding_witness :
    (load_from_file [("T1", snapEntryAt 1000)]).last_timestamp "T1"
        = some 1000 ∧
    process_position (load_from_file [("T1", snapEntryAt 1000)])
        sampleReport 2000 false
      = ⟨load_from_file [("T1", snapEntryAt 1000)], false, []⟩ := by
  have h := (restart_seeding [("T1", snapEntryAt 1000)] (by simp) "T1"
    (snapEntryAt 1000) (by simp)).2.1 1000 rfl (by decide)
  exact ⟨h.1, h.2 sampleReport 2000 false rfl rfl⟩

/-- C5 counterexample: a snapshot entry whose stored `ts` is 0 is not
seeded into `last_timestamp` (the claim says every entry is), so after the
restart a report repeating that prior timestamp is treated as new, not as
a duplicate. -/
theorem restart_seeding_counterexample :
    (load_from_file [("T1", snapEntryAt 0)]).last_timestamp "T1" = none ∧
    (process_position (load_from_file [("T1", snapEntryAt 0)])
        { sampleReport with ts := 0 } 2000 false).isNew = true := by
  exact ⟨rfl, rfl⟩

/-! ### Ingest routing and rate-limited authentication (the multi-event UDP
path of `run_server`). -/

/-- Python `int()` on a float: truncation toward zero. -/
def pyInt (q : ℚ) : ℤ := if q < 0 then Int.ceil q else Int.floor q

/-- One catalog entry, as consulted by the ingest path. -/
structure Event where
  name : String
  tracker_password : String
  admin_password : String
  archived : Bool
deriving DecidableEq

/-- The JSON ACK sent back to the reporting tracker. -/
structure Ack where
  ack : ℤ
  ts : ℤ
  event : Option String
  error : Option String
  msg : Option String
deriving DecidableEq

/-- `_failed_auth_times`: source IP → time of the last failed
authentication attempt. -/
abbrev RateMap : Type := String → Option ℚ

/-- `_RATE_LIMIT_SECONDS`. -/
def RATE_LIMIT_SECONDS : ℚ := 5

/-- `is_rate_limited(ip)`: a failed attempt less than the window ago. -/
def is_rate_limited (m : RateMap) (ip : String) (now : ℚ) : Bool :=
  match m ip with
  | some t => decide (now - t < RATE_LIMIT_SECONDS)
  | none => false

/-- `record_failed_auth(ip)`. -/
def record_failed_auth (m : RateMap) (ip : String) (now : ℚ) : RateMap :=
  fun x => if x = ip then some now else m x

/-- Outcome of routing one sanitized report: the ACK sent, the event's
tracker state, the rate-limit table, whether the report reached
`process_position`, and the daily-log lines appended. -/
structure IngestResult where
  ack : Ack
  tracker : TrackerState
  rate : RateMap
  processed : Bool
  logged : List LogEntry

/-- The multi-event UDP ingest path of `run_server` for one sanitized
report: event lookup, archived check, rate-limited password check, ACK,
then `EventTracker.process_position`.  (`get_event_tracker` cannot fail
here because the event was just looked up, so that error branch is
dropped.) -/
def udp_ingest (events : ℤ → Option Event) (eid : ℤ) (r : Report)
    (pos_array : Option (List PosSample)) (st : TrackerState)
    (rate : RateMap) (ip : String) (recv_time : ℚ) : IngestResult :=
  match events eid with
  | none =>
      ⟨⟨r.sq, pyInt recv_time, none, some "event",
        some ("Event " ++ toString eid ++ " not found")⟩, st, rate, false, []⟩
  | some ev =>
      if ev.archived then
        ⟨⟨r.sq, pyInt recv_time, none, some "event",
          some ("Event " ++ toString eid ++ " is archived")⟩,
         st, rate, false, []⟩
      else if ev.tracker_password ≠ "" ∧ is_rate_limited rate ip recv_time then
        ⟨⟨r.sq, pyInt recv_time, none, some "auth", some "Invalid password"⟩,
         st, rate, false, []⟩
      else if ev.tracker_password ≠ "" ∧ r.pwd ≠ ev.tracker_password then
        ⟨⟨r.sq, pyInt recv_time, none, some "auth", some "Invalid password"⟩,
         st, record_failed_auth rate ip recv_time, false, []⟩
      else
        let res := event_process_position st r pos_array recv_time
        ⟨⟨r.sq, pyInt recv_time, some ev.name, none, none⟩,
         res.state, rate, true, res.logged⟩

/-- C3 (amended): for an event with a non-empty tracker password, a report
whose `pwd` is missing or wrong is answered with an `auth` error ACK and
changes neither the live/last-timestamp tables nor the daily log (only the
rate-limit table); a report with the correct password on a non-archived
event is processed provided its source IP is not currently rate-limited
(a rate-limited IP receives an `auth` error even with the correct
password); and every report addressed to an archived event is answered
with an `event` error ACK, regardless of password, changing nothing. -/
theorem ingest_authentication (events : ℤ → Option Event) (eid : ℤ)
    (r : Report) (pos_array : Option (List PosSample)) (st : TrackerState)
    (rate : RateMap) (ip : String) (recv_time : ℚ) (ev : Event)
    (hev : events eid = some ev) :
    (ev.archived = true →
       (udp_ingest events eid r pos_array st rate ip recv_time).ack.error
           = some "event" ∧
       (udp_ingest events eid r pos_array st rate ip recv_time).tracker
           = st ∧
       (udp_ingest events eid r pos_array st rate ip recv_time).logged
           = [] ∧
       (udp_ingest events eid r pos_array st rate ip recv_time).processed
           = false) ∧
    (ev.archived = false → ev.tracker_password ≠ "" →
       (r.pwd ≠ ev.tracker_password →
          (udp_ingest events eid r pos_array st rate ip recv_time).ack.error
              = some "auth" ∧
          (udp_ingest events eid r pos_array st rate ip recv_time).tracker
              = st ∧
          (udp_ingest events eid r pos_array st rate ip recv_time).logged
              = [] ∧
          (udp_ingest events eid r pos_array st rate ip recv_time).processed
              = false) ∧
       (r.pwd = ev.tracker_password →
          is_rate_limited rate ip recv_time = false →
          (udp_ingest events eid r pos_array st rate ip recv_time).processed
              = true ∧
          (udp_ingest events eid r pos_array st rate ip recv_time).ack.error
              = none ∧
          (udp_ingest events eid r pos_array st rate ip recv_time).tracker
              = (event_process_position st r pos_array recv_time).state)) := by
  refine ⟨fun harch => ?_, fun harch hpw => ⟨fun hne => ?_, fun heq hrl => ?_⟩⟩
  · simp [udp_ingest, hev, harch]
  · by_cases hrl : is_rate_limited rate ip recv_time <;>
      simp [udp_ingest, hev, harch, hpw, hne, hrl]
  · simp [udp_ingest, hev, harch, hpw, heq, hrl]

/-- A non-archived event requiring the tracker password `sekret`. -/
def sampleEvent : Event :=
  { name := "Nationals", tracker_password := "sekret",
    admin_password := "adm", archived := false }

/-- A catalog holding `sampleEvent` as event 1 and an archived copy of it
as event 2. -/
def sampleEvents : ℤ → Option Event :=
  fun e =>
    if e = 1 then some sampleEvent
    else if e = 2 then some { sampleEvent with archived := true } else none

/-- A rate-limit table where IP `10.0.0.1` failed authentication at time 0. -/
def sampleRateMap : RateMap :=
  fun x => if x = "10.0.0.1" then some 0 else none

theorem ingest_authentication_witness :
    (udp_ingest sampleEvents 2 sampleReport none TrackerState.empty
        (fun _ => none) "10.0.0.1" 1).ack.error = some "event" ∧
    (udp_ingest sampleEvents 1 { sampleReport with pwd := "wrong" } none
        TrackerState.empty (fun _ => none) "10.0.0.1" 1).ack.error
        = some "auth" ∧
    (udp_ingest sampleEvents 1 { sampleReport with pwd := "sekret" } none
        TrackerState.empty (fun _ => none) "10.0.0.1" 1).processed
        = true := by
  refine ⟨?_, ?_, ?_⟩
  · exact ((ingest_authentication sampleEvents 2 sampleReport none
      TrackerState.empty (fun _ => none) "10.0.0.1" 1
      { sampleEvent with archived := true } rfl).1 rfl).1
  · exact (((ingest_authentication sampleEvents 1
      { sampleReport with pwd := "wrong" } none TrackerState.empty
      (fun _ => none) "10.0.0.1" 1 sampleEvent rfl).2 rfl
      (by decide)).1 (by decide)).1
  · exact (((ingest_authentication sampleEvents 1
      { sampleReport with pwd := "sekret" } none TrackerState.empty
      (fun _ => none) "10.0.0.1" 1 sampleEvent rfl).2 rfl
      (by decide)).2 rfl rfl).1

/-- C3 counterexample: with the correct password but a rate-limited source
IP (a failed attempt one second earlier), a report to a non-archived
password-protected event is answered with an `auth` error and is not
processed, though the claim says every correct-password report on a
non-archived event is processed. -/
theorem ingest_authentication_counterexample :
    sampleEvent.archived = false ∧
    sampleEvent.tracker_password = "sekret" ∧
    (udp_ingest sampleEvents 1 { sampleReport with pwd := "sekret" } none
        TrackerState.empty sampleRateMap "10.0.0.1" 1).processed = false ∧
    (udp_ingest sampleEvents 1 { sampleReport with pwd := "sekret" } none
        TrackerState.empty sampleRateMap "10.0.0.1" 1).ack.error
      = some "auth" := by
  have hlim : is_rate_limited sampleRateMap "10.0.0.1" 1 = true := by
    simp only [is_rate_limited, sampleRateMap, if_pos rfl, decide_eq_true_eq,
      RATE_LIMIT_SECONDS]
    norm_num
  refine ⟨rfl, rfl, ?_, ?_⟩ <;>
    simp [udp_ingest, sampleEvents, sampleEvent, hlim]

/-- C4: once an IP has a failed authentication recorded at time `t`, every
authentication attempt from it before `t + 5` — whatever the password —
is answered with an `auth` error and not processed; at or after `t + 5`
the IP is no longer rate-limited and the report is evaluated normally;
and a successful authentication leaves the rate-limit table unchanged
(no entry added or removed). -/
theorem rate_limiting (events : ℤ → Option Event) (eid : ℤ) (r : Report)
    (pos_array : Option (List PosSample)) (st : TrackerState)
    (rate : RateMap) (ip : String) (t : ℚ) (ev : Event)
    (hev : events eid = some ev) (harch : ev.archived = false)
    (hpw : ev.tracker_password ≠ "") (ht : rate ip = some t) :
    (∀ m : RateMap, record_failed_auth m ip t ip = some t) ∧
    (∀ now, now < t + RATE_LIMIT_SECONDS →
       (udp_ingest events eid r pos_array st rate ip now).ack.error
           = some "auth" ∧
       (udp_ingest events eid r pos_array st rate ip now).processed
           = false) ∧
    (∀ now, t + RATE_LIMIT_SECONDS ≤ now →
       is_rate_limited rate ip now = false) ∧
    (∀ now, r.pwd = ev.tracker_password →
       is_rate_limited rate ip now = false →
       (udp_ingest events eid r pos_array st rate ip now).rate = rate ∧
       (udp_ingest events eid r pos_array st rate ip now).processed
           = true) := by
  refine ⟨fun m => by simp [record_failed_auth], fun now hnow => ?_,
    fun now hnow => ?_, fun now heq hrl => ?_⟩
  · have hlim : is_rate_limited rate ip now = true := by
      simp only [is_rate_limited, ht]
      simp only [decide_eq_true_eq]
      linarith
    simp [udp_ingest, hev, harch, hpw, hlim]
  · simp only [is_rate_limited, ht]
    simp only [decide_eq_false_iff_not, not_lt]
    linarith
  · simp [udp_ingest, hev, harch, hpw, heq, hrl]

theorem rate_limiting_witness :
    (udp_ingest sampleEvents 1 { sampleReport with pwd := "sekret" } none
        TrackerState.empty sampleRateMap "10.0.0.1" 1).ack.error
        = some "auth" ∧
    is_rate_limited sampleRateMap "10.0.0.1" 6 = false ∧
    (udp_ingest sampleEvents 1 { sampleReport with pwd := "sekret" } none
        TrackerState.empty sampleRateMap "10.0.0.1" 6).rate
        = sampleRateMap := by
  refine ⟨?_, ?_, ?_⟩
  · exact ((rate_limiting sampleEvents 1 { sampleReport with pwd := "sekret" }
      none TrackerState.empty sampleRateMap "10.0.0.1" 0 sampleEvent rfl rfl
      (by decide) rfl).2.1 1 (by norm_num [RATE_LIMIT_SECONDS])).1
  · exact (rate_limiting sampleEvents 1 { sampleReport with pwd := "sekret" }
      none TrackerState.empty sampleRateMap "10.0.0.1" 0 sampleEvent rfl rfl
      (by decide) rfl).2.2.1 6 (by norm_num [RATE_LIMIT_SECONDS])
  · have hfree : is_rate_limited sampleRateMap "10.0.0.1" 6 = false := by
      simp only [is_rate_limited, sampleRateMap, if_pos rfl,
        decide_eq_false_iff_not, not_lt, RATE_LIMIT_SECONDS]
      norm_num
    exact ((rate_limiting sampleEvents 1 { sampleReport with pwd := "sekret" }
      none TrackerState.empty sampleRateMap "10.0.0.1" 0 sampleEvent rfl rfl
      (by decide) rfl).2.2.2 6 rfl hfree).1

/-! ### Per-day summary: course association
(`get_course_timestamp` / `find_applicable_course`). -/

/-- What `get_course_timestamp` yields for one file slot: `none` — the file
does not exist; `some none` — it exists but no timestamp could be read;
`some (some t)` — its embedded `updated` timestamp (with mtime as
fallback) is `t`. -/
abbrev CourseSlot : Type := Option (Option ℚ)

/-- The file name of the i-th rotated course. -/
def courseName (i : ℕ) : String := "course.json." ++ toString i

/-- The scan loop `for i in range(1, 100)` of `find_applicable_course`:
`rots` lists the slots of `course.json.1, course.json.2, …`; the loop
breaks at the first missing file, skips unreadable ones, and visits at
most 99 indices (`fuel`). -/
def scanRotations : List CourseSlot → ℕ → ℕ → List (String × ℚ)
  | _, _, 0 => []
  | [], _, _ => []
  | none :: _, _, _ => []
  | some none :: rest, i, fuel + 1 => scanRotations rest (i + 1) fuel
  | some (some t) :: rest, i, fuel + 1 =>
      (courseName i, t) :: scanRotations rest (i + 1) fuel

/-- The `course_files` list assembled by `find_applicable_course`:
`course.json` (when present and readable) followed by the scanned
rotations. -/
def course_files_list (base : CourseSlot) (rots : List CourseSlot) :
    List (String × ℚ) :=
  (match base with
   | some (some t) => [("course.json", t)]
   | _ => []) ++ scanRotations rots 1 99

/-- One comparison of Python `max(…, key=lambda x: x[1])`: the running
maximum is replaced only on a strictly greater key, so the first maximiser
wins ties. -/
def maxStep (q x : String × ℚ) : String × ℚ := if q.2 < x.2 then x else q

/-- Python `max(l, key=lambda x: x[1])` on a possibly empty list. -/
def pyMaxByTs : List (String × ℚ) → Option (String × ℚ)
  | [] => none
  | p :: rest => some (rest.foldl maxStep p)

/-- `find_applicable_course(event_dir, log_end_ts)`: among the scanned
course files, the one with the greatest timestamp at most `log_end_ts`,
or `none` when there is none. -/
def find_applicable_course (base : CourseSlot) (rots : List CourseSlot)
    (log_end_ts : ℚ) : Option (String × ℚ) :=
  let course_files := course_files_list base rots
  if course_files.isEmpty then none
  else pyMaxByTs (course_files.filter fun p => p.2 ≤ log_end_ts)

theorem maxStep_left (p x : String × ℚ) : p.2 ≤ (maxStep p x).2 := by
  unfold maxStep
  by_cases hc : p.2 < x.2
  · rw [if_pos hc]
    exact le_of_lt hc
  · rw [if_neg hc]

theorem maxStep_right (p x : String × ℚ) : x.2 ≤ (maxStep p x).2 := by
  unfold maxStep
  by_cases hc : p.2 < x.2
  · rw [if_pos hc]
  · rw [if_neg hc]
    exact le_of_not_lt hc

theorem maxStep_mem (p x : String × ℚ) : maxStep p x = p ∨ maxStep p x = x := by
  unfold maxStep
  by_cases hc : p.2 < x.2
  · right
    rw [if_pos hc]
  · left
    rw [if_neg hc]

theorem foldl_maxStep_spec (l : List (String × ℚ)) (p : String × ℚ) :
    l.foldl maxStep p ∈ p :: l ∧ p.2 ≤ (l.foldl maxStep p).2 ∧
      ∀ q ∈ l, q.2 ≤ (l.foldl maxStep p).2 := by
  induction l generalizing p with
  | nil => exact ⟨List.mem_singleton.mpr rfl, le_refl _, by simp⟩
  | cons x xs ih =>
      obtain ⟨h1, h2, h3⟩ := ih (maxStep p x)
      rw [List.foldl_cons]
      refine ⟨?_, le_trans (maxStep_left p x) h2, fun q hq => ?_⟩
      · rcases List.mem_cons.mp h1 with hh | hh
        · rw [hh]
          rcases maxStep_mem p x with h4 | h4 <;> rw [h4]
          · exact List.mem_cons_self _ _
          · exact List.mem_cons.mpr (Or.inr (List.mem_cons_self _ _))
        · exact List.mem_cons.mpr (Or.inr (List.mem_cons.mpr (Or.inr hh)))
      · rcases List.mem_cons.mp hq with hh | hh
        · rw [hh]
          exact le_trans (maxStep_right p x) h2
        · exact h3 q hh

/-- C7 (amended): for a log segment ending at `E`, the summary's course is
the scanned course file with the greatest timestamp that is at most `E`,
and no course field is recorded when no scanned file qualifies — where the
scanned files are `course.json` plus the contiguous rotations
`course.json.1, course.json.2, …` up to the first missing suffix and at
most `.99` (the scan loop breaks at a gap and stops after index 99). -/
theorem course_association (base : CourseSlot) (rots : List CourseSlot)
    (E : ℚ) :
    (∀ f t, find_applicable_course base rots E = some (f, t) →
       (f, t) ∈ course_files_list base rots ∧ t ≤ E ∧
       ∀ g u, (g, u) ∈ course_files_list base rots → u ≤ E → u ≤ t) ∧
    ((∀ g u, (g, u) ∈ course_files_list base rots → E < u) →
       find_applicable_course base rots E = none) := by
  constructor
  · intro f t hf
    unfold find_applicable_course at hf
    by_cases hemp : (course_files_list base rots).isEmpty
    · rw [if_pos hemp] at hf
      cases hf
    · rw [if_neg hemp] at hf
      rcases hfil : (course_files_list base rots).filter (fun p => p.2 ≤ E)
        with _ | ⟨p, rest⟩
      · rw [hfil] at hf
        cases hf
      · rw [hfil] at hf
        unfold pyMaxByTs at hf
        injection hf with hf
        obtain ⟨h1, h2, h3⟩ := foldl_maxStep_spec rest p
        rw [hf] at h1 h2 h3
        have hmemfil : (f, t) ∈
            (course_files_list base rots).filter (fun p => p.2 ≤ E) := by
          rw [hfil]
          exact h1
        have hmem := List.mem_filter.mp hmemfil
        refine ⟨hmem.1, by simpa using hmem.2, fun g u hg hu => ?_⟩
        have hgf : (g, u) ∈
            (course_files_list base rots).filter (fun p => p.2 ≤ E) :=
          List.mem_filter.mpr ⟨hg, by simpa using hu⟩
        rw [hfil] at hgf
        rcases List.mem_cons.mp hgf with hh | hh
        · rw [show u = p.2 from congrArg Prod.snd hh]
          exact h2
        · exact h3 (g, u) hh
  · intro h
    unfold find_applicable_course
    by_cases hemp : (course_files_list base rots).isEmpty
    · rw [if_pos hemp]
    · rw [if_neg hemp]
      have hfil : (course_files_list base rots).filter (fun p => p.2 ≤ E)
          = [] := by
        rw [List.filter_eq_nil_iff]
        intro a ha
        simp only [decide_eq_true_eq, not_le]
        exact h a.1 a.2 ha
      rw [hfil]
      rfl

theorem course_association_witness :
    ("course.json.1", (7 : ℚ)) ∈
        course_files_list (some (some 3)) [some (some 7)] ∧
    (7 : ℚ) ≤ 10 ∧
    find_applicable_course (some (some 3)) [some (some 7)] 10
        = some ("course.json.1", 7) ∧
    find_applicable_course (some (some 30)) [some (some 70)] 10 = none := by
  have h := (course_association (some (some 3)) [some (some 7)] 10).1
    "course.json.1" 7 (by decide)
  have hlist : course_files_list (some (some 30)) [some (some 70)]
      = [("course.json", (30 : ℚ)), ("course.json.1", 70)] := by decide
  have h2 := (course_association (some (some 30)) [some (some 70)] 10).2
    (by
      intro g u hg
      rw [hlist] at hg
      rcases List.mem_cons.mp hg with hh | hh
      · rw [show u = (30 : ℚ) from congrArg Prod.snd hh]
        decide
      · rw [show u = (70 : ℚ) from
          congrArg Prod.snd (List.mem_singleton.mp hh)]
        decide)
  exact ⟨h.1, h.2.1, by decide, h2⟩

/-- C7 counterexample: a directory built by 100 course saves, where the
oldest rotation `course.json.100` is the only one whose timestamp (7) is
at most the segment end `E = 10` apart from the active `course.json`
(timestamp 5).  The claim picks `course.json.100` (greatest `updated`
`≤ E` among all rotations), but the scan loop never looks past index 99
and the generated summary records `course.json` instead. -/
theorem course_association_counterexample :
    (List.replicate 99 (some (some (20 : ℚ))) ++ [some (some (7 : ℚ))]).get?
        99 = some (some (some 7)) ∧
    (7 : ℚ) ≤ 10 ∧ (5 : ℚ) < 7 ∧
    find_applicable_course (some (some 5))
        (List.replicate 99 (some (some (20 : ℚ))) ++ [some (some (7 : ℚ))])
        10
      = some ("course.json", 5) := by
  refine ⟨by decide, by decide, by decide, by decide⟩

/-! ### The sanitizer (`sanitize_tracker_packet`): integer fields. -/

/-- A JSON value as seen by the sanitizer; `jother` stands for aggregates
(lists, objects) on which `int()` raises `TypeError`. -/
inductive JVal where
  | jnull
  | jbool (b : Bool)
  | jint (n : ℤ)
  | jnum (q : ℚ)
  | jstr (s : String)
  | jother
deriving DecidableEq

/-- Accumulating decimal digits (`int(str)` body). -/
def parseNatAux : List Char → ℕ → Option ℕ
  | [], acc => some acc
  | c :: cs, acc =>
      if 48 ≤ c.toNat ∧ c.toNat ≤ 57 then
        parseNatAux cs (acc * 10 + (c.toNat - 48))
      else none

/-- Python `int(str)`, approximated: an optional minus sign followed by
decimal digits.  Which strings parse does not matter for the claims, only
that failures yield the default. -/
def pyStrToInt (s : String) : Option ℤ :=
  match s.toList with
  | [] => none
  | '-' :: [] => none
  | '-' :: ds => (parseNatAux ds 0).map (fun n => -(n : ℤ))
  | ds => (parseNatAux ds 0).map (fun n => (n : ℤ))

/-- Python `int(value)`; `none` models a raised `ValueError`/`TypeError`. -/
def pyIntOf : JVal → Option ℤ
  | .jnull => none
  | .jbool b => some (if b then 1 else 0)
  | .jint n => some n
  | .jnum q => some (pyInt q)
  | .jstr s => pyStrToInt s
  | .jother => none

/-- The clamping in `sanitize_int`: `result = max(min_val, result)` then
`result = min(max_val, result)`, each bound optional. -/
def clampInt (v : ℤ) (lo hi : Option ℤ) : ℤ :=
  let v1 := match lo with
    | some m => max m v
    | none => v
  match hi with
  | some m => min m v1
  | none => v1

/-- `sanitize_int`: `None` becomes the default and is clamped; a coercible
value is clamped; an exception yields the unclamped default. -/
def sanitize_int (v : JVal) (default : ℤ) (lo hi : Option ℤ) : ℤ :=
  if v = .jnull then clampInt default lo hi
  else
    match pyIntOf v with
    | some r => clampInt r lo hi
    | none => default

/-- The heading field of `sanitize_tracker_packet`:
`sanitize_int(packet.get('hdg'), default=0, min_val=0, max_val=360)`. -/
def sanitize_hdg (hdg : Option JVal) : ℤ :=
  sanitize_int (hdg.getD .jnull) 0 (some 0) (some 360)

theorem clampInt_hdg_bounds (r : ℤ) :
    0 ≤ clampInt r (some 0) (some 360) ∧
      clampInt r (some 0) (some 360) ≤ 360 := by
  simp only [clampInt]
  omega

theorem sanitize_int_hdg_bounds (w : JVal) :
    0 ≤ sanitize_int w 0 (some 0) (some 360) ∧
      sanitize_int w 0 (some 0) (some 360) ≤ 360 := by
  unfold sanitize_int
  by_cases hn : w = .jnull
  · rw [if_pos hn]
    exact clampInt_hdg_bounds 0
  · rw [if_neg hn]
    rcases h : pyIntOf w with _ | r
    · simp only [h]
      exact ⟨le_refl 0, by norm_num⟩
    · simp only [h]
      exact clampInt_hdg_bounds r

/-- C9 (amended): the sanitizer clamps the heading to the range 0–360
inclusive (`max_val=360`, not 359): every sanitized `hdg` lies in that
range, and an uncoercible or missing value becomes the default 0. -/
theorem heading_clamped (v : Option JVal) :
    (0 ≤ sanitize_hdg v ∧ sanitize_hdg v ≤ 360) ∧
    (∀ s, pyStrToInt s = none → sanitize_hdg (some (.jstr s)) = 0) ∧
    sanitize_hdg (some .jother) = 0 ∧
    sanitize_hdg none = 0 := by
  refine ⟨sanitize_int_hdg_bounds (v.getD .jnull), fun s hs => ?_, rfl, rfl⟩
  simp only [sanitize_hdg, Option.getD, sanitize_int, pyIntOf, hs,
    reduceCtorEq, if_false]

theorem heading_clamped_witness :
    (0 ≤ sanitize_hdg (some (.jint 720)) ∧
      sanitize_hdg (some (.jint 720)) ≤ 360) ∧
    sanitize_hdg (some (.jstr "abc")) = 0 := by
  obtain ⟨h1, h2, -, -⟩ := heading_clamped (some (.jint 720))
  exact ⟨h1, h2 "abc" rfl⟩

/-- C9 counterexample: the sanitizer's upper bound is 360, so the input
`hdg = 360` is kept as 360, which is outside the claimed 0–359 range. -/
theorem heading_clamped_counterexample :
    sanitize_hdg (some (.jint 360)) = 360 ∧ ¬ (360 : ℤ) ≤ 359 := by
  exact ⟨rfl, by decide⟩

/-! ### Per-event admin POST endpoints (`_handle_event_post`,
multi-event mode). -/

/-- A saved course document: the posted body (opaque here) plus the
`updated` stamp added on save. -/
structure CourseDoc where
  body : String
  updated : ℚ
deriving DecidableEq

/-- The per-event state that the admin POST endpoints can touch. -/
structure EventState where
  tracker : TrackerState
  positions_file : Option Snapshot
  log_today : List LogEntry
  log_rotations : List (List LogEntry)
  course : Option CourseDoc
  course_rotations : List CourseDoc
  user_overrides : String → Option Override

/-- `EventTracker.clear_tracks`: rotate today's log file, delete the
positions file, clear the in-memory tables, re-emit an empty snapshot. -/
def clear_tracks (st : EventState) (now : ℚ) : EventState :=
  { st with
    log_rotations := st.log_rotations ++ [st.log_today],
    log_today := [],
    tracker := TrackerState.empty,
    positions_file :=
      some (write_current_positions (fun _ => none) st.user_overrides now) }

/-- The course-save branch: rotate any existing course (with contiguous
suffixes the rotation lands at the end of the list), stamp, write. -/
def save_course (st : EventState) (body : String) (now : ℚ) : EventState :=
  { st with
    course := some ⟨body, now⟩,
    course_rotations :=
      match st.course with
      | some c => st.course_rotations ++ [c]
      | none => st.course_rotations }

/-- The decoded JSON body of a user-override POST. -/
structure UserBody where
  name : Option String
  role : Option String
  hidden : Option Bool
deriving DecidableEq

/-- Building the override dict: `name` kept when present, `role` kept only
when in the allowed set, `hidden` booleanised when present. -/
def build_override (d : UserBody) : Override :=
  { name := d.name,
    role :=
      match d.role with
      | some r =>
          if r = "sailor" ∨ r = "support" ∨ r = "spectator" then some r
          else none
      | none => none,
    hidden := d.hidden }

/-- Python `if override:` — is the built dict empty? -/
def Override.isEmptyDict (o : Override) : Bool :=
  o.name.isNone && o.role.isNone && o.hidden.isNone

/-- One admin POST request (the subpath dispatch of `_handle_event_post`);
`none` bodies stand for unparseable JSON. -/
inductive EventPostReq where
  | clearTracks
  | course (body : Option String)
  | user (uid : String) (body : Option UserBody)
  | other
deriving DecidableEq

/-- An HTTP response: the status code and the error message, if any. -/
structure HttpResp where
  status : ℕ
  error : Option String
deriving DecidableEq

/-- `AdminHTTPHandler._check_event_admin_auth` in multi-event mode (its
failed-attempt recording is not needed by any claim and is omitted). -/
def check_event_admin_auth (events : ℤ → Option Event) (eid : ℤ)
    (password : String) (rate : RateMap) (ip : String) (now : ℚ) : Bool :=
  if is_rate_limited rate ip now then false
  else
    match events eid with
    | none => false
    | some ev => password = ev.admin_password

/-- `AdminHTTPHandler._handle_event_post` in multi-event mode: parse the
event id, look the event up, reject archived events, authenticate, then
dispatch to the endpoint. -/
def handle_event_post (events : ℤ → Option Event) (eid : Option ℤ)
    (req : EventPostReq) (header_pwd : String) (rate : RateMap)
    (ip : String) (st : EventState) (now : ℚ) : HttpResp × EventState :=
  match eid with
  | none => (⟨400, some "Invalid event path"⟩, st)
  | some e =>
      match events e with
      | none => (⟨404, some ("Event " ++ toString e ++ " not found")⟩, st)
      | some ev =>
          if ev.archived then
            (⟨400, some ("Event " ++ toString e ++ " is archived")⟩, st)
          else if ¬ check_event_admin_auth events e header_pwd rate ip now then
            (⟨401, some "Unauthorized"⟩, st)
          else
            match req with
            | .clearTracks => (⟨200, none⟩, clear_tracks st now)
            | .course none => (⟨400, some "Invalid JSON"⟩, st)
            | .course (some body) => (⟨200, none⟩, save_course st body now)
            | .user uid bd =>
                if uid = "" then (⟨400, some "User ID required"⟩, st)
                else
                  match bd with
                  | none => (⟨400, some "Invalid JSON"⟩, st)
                  | some data =>
                      let o := build_override data
                      if o.isEmptyDict then
                        (⟨400, some "No valid fields (name, role)"⟩, st)
                      else
                        let ov2 := mapSet st.user_overrides uid o
                        (⟨200, none⟩,
                         { st with
                           user_overrides := ov2,
                           positions_file :=
                             some (write_current_positions
                               st.tracker.current_positions ov2 now) })
            | .other => (⟨404, some "Not found"⟩, st)

/-- C10: every per-event admin POST addressed to an archived event is
answered with HTTP 400 and the event-archived error before any password
check — the response does not depend on the password header — and the
event's state (live tables, log files, course, overrides) is left
unchanged. -/
theorem archived_admin_post (events : ℤ → Option Event) (e : ℤ) (ev : Event)
    (hev : events e = some ev) (harch : ev.archived = true)
    (req : EventPostReq) (pwd pwd2 : String) (rate : RateMap) (ip : String)
    (st : EventState) (now : ℚ) :
    handle_event_post events (some e) req pwd rate ip st now
      = (⟨400, some ("Event " ++ toString e ++ " is archived")⟩, st) ∧
    handle_event_post events (some e) req pwd rate ip st now
      = handle_event_post events (some e) req pwd2 rate ip st now := by
  have h1 : ∀ p : String,
      handle_event_post events (some e) req p rate ip st now
        = (⟨400, some ("Event " ++ toString e ++ " is archived")⟩, st) := by
    intro p
    simp [handle_event_post, hev, harch]
  exact ⟨h1 pwd, by rw [h1 pwd, h1 pwd2]⟩

/-- An event state with nothing recorded yet. -/
def emptyEventState : EventState :=
  { tracker := TrackerState.empty, positions_file := none, log_today := [],
    log_rotations := [], course := none, course_rotations := [],
    user_overrides := fun _ => none }

theorem archived_admin_post_witness :
    handle_event_post sampleEvents (some 2) .clearTracks "adm"
        (fun _ => none) "10.0.0.1" emptyEventState 100
      = (⟨400, some "Event 2 is archived"⟩, emptyEventState) ∧
    handle_event_post sampleEvents (some 2) .clearTracks "adm"
        (fun _ => none) "10.0.0.1" emptyEventState 100
      = handle_event_post sampleEvents (some 2) .clearTracks "wrong"
          (fun _ => none) "10.0.0.1" emptyEventState 100 := by
  have h := archived_admin_post sampleEvents 2
    { sampleEvent with archived := true } rfl rfl .clearTracks "adm" "wrong"
    (fun _ => none) "10.0.0.1" emptyEventState 100
  exact ⟨h.1, h.2⟩

end TrackerServer
